import Mathlib

/-!
Shallow embedding of the `ElderlyMonitoringFHE` Solidity contract
(src/unnamed/part_000) and proofs of the specified properties of its
asynchronous decrypt-request / verified-callback protocol.

Modelling decisions, all taken from the source:
* `euint32` ciphertext handles are opaque to the contract; they are modelled
  as `Nat`.
* Solidity mappings have zero-initialized defaults; they are modelled as total
  functions `Nat → _` returning the zero value of the codomain, updated with
  `Function.update`.
* `bytes` payloads only ever flow through `abi.decode` as either `string[]`
  or `string`; the `Bytes` type enumerates the abi-encoded shapes, and the
  decoders succeed exactly on the matching shape (a mismatched decode
  reverts, modelled as a `DecodeError`).
* `FHE.checkSignatures` is the oracle's external signature-verification
  primitive; it is a parameter `checkSig : Nat → Bytes → Bytes → Bool` of the
  callback entry points (revert on `false`, modelled as `InvalidProof`).
* `FHE.requestDecryption` returns a request token chosen by the external
  oracle layer; the token is an explicit input of the request entry points.
* A reverted call rolls back all state changes: each entry point returns
  `Except ContractError ContractState`, and the transaction-level `step`
  function keeps the pre-state on `error`.
-/

/-- `DecryptedEvent` struct: stored outcome of a verified decryption. -/
structure DecryptedEvent where
  summary : String
  isHandled : Bool
deriving DecidableEq, Repr

/-- `EncryptedSensorData` struct. Handles are opaque `Nat`s. -/
structure EncryptedSensorData where
  id : Nat
  encryptedActivityVector : Nat
  encryptedSleepVector : Nat
  timestamp : Nat
deriving DecidableEq, Repr

/-- `EncryptedAlert` struct. -/
structure EncryptedAlert where
  id : Nat
  encryptedAlertPayload : Nat
  timestamp : Nat
deriving DecidableEq, Repr

/-- `bytes` values as they are used by the contract: abi-encodings of a
string list, of a single string, or anything else. -/
inductive Bytes where
  | encStringList (l : List String)
  | encString (s : String)
  | raw (n : Nat)
deriving DecidableEq, Repr

/-- `abi.decode(cleartexts, (string[]))`: succeeds exactly on the encoding of
a string list, reverts otherwise. -/
def abiDecodeStringList : Bytes → Option (List String)
  | .encStringList l => some l
  | _ => none

/-- `abi.decode(cleartexts, (string))`: succeeds exactly on the encoding of a
single string, reverts otherwise. -/
def abiDecodeString : Bytes → Option String
  | .encString s => some s
  | _ => none

/-- The contract's emitted events (notifications). -/
inductive Event where
  | SensorDataSubmitted (id ts : Nat)
  | AnomalyDetectionRequested (id : Nat)
  | AnomalyDetected (id : Nat)
  | EncryptedAlertSubmitted (id ts : Nat)
  | AlertDecryptionRequested (id : Nat)
  | AlertDecrypted (id : Nat)
deriving DecidableEq, Repr

/-- Failure kinds of the entry points. `NotFound` covers the
"Data not found" / "Alert not found" requires, `InvalidRequest` the unknown
token, `AlreadyHandled` the replayed record callback, `InvalidProof` a
`FHE.checkSignatures` revert, `DecodeError` an `abi.decode` revert, and
`Unauthorized` is the (never produced) failure of the access-control hook. -/
inductive ContractError where
  | NotFound
  | InvalidRequest
  | AlreadyHandled
  | InvalidProof
  | DecodeError
  | Unauthorized
deriving DecidableEq, Repr

/-- The contract's storage. -/
structure ContractState where
  sensorDataCount : Nat
  alertCount : Nat
  sensorDatas : Nat → EncryptedSensorData
  encryptedAlerts : Nat → EncryptedAlert
  decryptedEvents : Nat → DecryptedEvent
  requestToDataId : Nat → Nat
  requestToAlertId : Nat → Nat
  events : List Event

/-- Freshly deployed contract: zero counters, zero-initialized mappings. -/
def initState : ContractState where
  sensorDataCount := 0
  alertCount := 0
  sensorDatas := fun _ => ⟨0, 0, 0, 0⟩
  encryptedAlerts := fun _ => ⟨0, 0, 0⟩
  decryptedEvents := fun _ => ⟨"", false⟩
  requestToDataId := fun _ => 0
  requestToAlertId := fun _ => 0
  events := []

/-- The `onlySource` modifier: a placeholder for access control that lets
every caller through (`_;` with no check). -/
def onlySource (_caller : Nat) : Except ContractError Unit :=
  .ok ()

/-- `submitEncryptedSensorData`: increments the counter, stores the record at
the new id with the block timestamp, initializes its `DecryptedEvent` slot to
`("", false)`, emits `SensorDataSubmitted`. -/
def submitEncryptedSensorData (s : ContractState)
    (encryptedActivityVector encryptedSleepVector ts : Nat) : ContractState :=
  let newId := s.sensorDataCount + 1
  { s with
    sensorDataCount := newId
    sensorDatas := Function.update s.sensorDatas newId
      ⟨newId, encryptedActivityVector, encryptedSleepVector, ts⟩
    decryptedEvents := Function.update s.decryptedEvents newId ⟨"", false⟩
    events := s.events ++ [.SensorDataSubmitted newId ts] }

/-- `requestAnomalyDetection`: gated by `onlySource`; requires the record to
exist (`dataRecord.id != 0`), asks the oracle layer for a decryption of the
two handles receiving the fresh token `reqId`, stores `reqId ↦ dataId`, emits
`AnomalyDetectionRequested`. -/
def requestAnomalyDetection (s : ContractState) (caller dataId reqId : Nat) :
    Except ContractError ContractState :=
  match onlySource caller with
  | .error e => .error e
  | .ok _ =>
    let dataRecord := s.sensorDatas dataId
    if dataRecord.id = 0 then .error .NotFound
    else .ok { s with
      requestToDataId := Function.update s.requestToDataId reqId dataId
      events := s.events ++ [.AnomalyDetectionRequested dataId] }

/-- `handleAnomalyResult`: resolves the token (`InvalidRequest` on the 0
sentinel), rejects a replay (`AlreadyHandled`), verifies the proof
(`InvalidProof`), decodes the cleartexts as `string[]`, stores the first
element (or `""`) as the summary with `isHandled = true`, emits
`AnomalyDetected`. -/
def handleAnomalyResult (checkSig : Nat → Bytes → Bytes → Bool)
    (s : ContractState) (requestId : Nat) (cleartexts pf : Bytes) :
    Except ContractError ContractState :=
  let dataId := s.requestToDataId requestId
  if dataId = 0 then .error .InvalidRequest
  else
    let ev := s.decryptedEvents dataId
    if ev.isHandled then .error .AlreadyHandled
    else if checkSig requestId cleartexts pf then
      match abiDecodeStringList cleartexts with
      | none => .error .DecodeError
      | some results =>
        let summary := match results with
          | [] => ""
          | r :: _ => r
        .ok { s with
          decryptedEvents := Function.update s.decryptedEvents dataId
            ⟨summary, true⟩
          events := s.events ++ [.AnomalyDetected dataId] }
    else .error .InvalidProof

/-- `submitEncryptedAlert`: symmetric intake on the separate alert counter;
creates no `DecryptedEvent` slot. -/
def submitEncryptedAlert (s : ContractState) (encryptedPayload ts : Nat) :
    ContractState :=
  let newId := s.alertCount + 1
  { s with
    alertCount := newId
    encryptedAlerts := Function.update s.encryptedAlerts newId
      ⟨newId, encryptedPayload, ts⟩
    events := s.events ++ [.EncryptedAlertSubmitted newId ts] }

/-- `requestAlertDecryption`: gated by `onlySource`; requires the alert to
exist, registers `reqId ↦ alertId` in the separate alert namespace, emits
`AlertDecryptionRequested`. -/
def requestAlertDecryption (s : ContractState) (caller alertId reqId : Nat) :
    Except ContractError ContractState :=
  match onlySource caller with
  | .error e => .error e
  | .ok _ =>
    let a := s.encryptedAlerts alertId
    if a.id = 0 then .error .NotFound
    else .ok { s with
      requestToAlertId := Function.update s.requestToAlertId reqId alertId
      events := s.events ++ [.AlertDecryptionRequested alertId] }

/-- `handleAlertCleartext`: resolves the token in the alert namespace,
verifies the proof, decodes a single string, emits `AlertDecrypted`. It
stores nothing and has no handled guard. -/
def handleAlertCleartext (checkSig : Nat → Bytes → Bytes → Bool)
    (s : ContractState) (requestId : Nat) (cleartexts pf : Bytes) :
    Except ContractError ContractState :=
  let alertId := s.requestToAlertId requestId
  if alertId = 0 then .error .InvalidRequest
  else if checkSig requestId cleartexts pf then
    match abiDecodeString cleartexts with
    | none => .error .DecodeError
    | some _ => .ok { s with events := s.events ++ [.AlertDecrypted alertId] }
  else .error .InvalidProof

/-- `getDecryptedEvent`: pure read of the outcome slot, never fails. -/
def getDecryptedEvent (s : ContractState) (dataId : Nat) : String × Bool :=
  let ev := s.decryptedEvents dataId
  (ev.summary, ev.isHandled)

/-- One external transaction: every entry point with its inputs. Request
tokens (`reqId`) are chosen by the external oracle layer. -/
inductive Call where
  | submitSensor (act sleep ts : Nat)
  | submitAlert (payload ts : Nat)
  | requestAnomaly (caller dataId reqId : Nat)
  | requestAlertDec (caller alertId reqId : Nat)
  | handleAnomaly (requestId : Nat) (cleartexts pf : Bytes)
  | handleAlert (requestId : Nat) (cleartexts pf : Bytes)
deriving DecidableEq

/-- Transaction semantics: a reverted entry point rolls the state back. -/
def step (checkSig : Nat → Bytes → Bytes → Bool) (s : ContractState) :
    Call → ContractState
  | .submitSensor a sl ts => submitEncryptedSensorData s a sl ts
  | .submitAlert p ts => submitEncryptedAlert s p ts
  | .requestAnomaly c d r =>
    match requestAnomalyDetection s c d r with
    | .ok s' => s'
    | .error _ => s
  | .requestAlertDec c a r =>
    match requestAlertDecryption s c a r with
    | .ok s' => s'
    | .error _ => s
  | .handleAnomaly req ct pf =>
    match handleAnomalyResult checkSig s req ct pf with
    | .ok s' => s'
    | .error _ => s
  | .handleAlert req ct pf =>
    match handleAlertCleartext checkSig s req ct pf with
    | .ok s' => s'
    | .error _ => s

/-- Run a sequence of transactions from the freshly deployed contract. -/
def execTrace (checkSig : Nat → Bytes → Bytes → Bool) (cs : List Call) :
    ContractState :=
  cs.foldl (step checkSig) initState

/-- Run a sequence of `submitEncryptedSensorData` calls; each triple is
(activity handle, sleep handle, timestamp). -/
def submitSeq (s : ContractState) (subs : List (Nat × Nat × Nat)) :
    ContractState :=
  subs.foldl (fun st x => submitEncryptedSensorData st x.1 x.2.1 x.2.2) s

/-- Does this call invoke `requestAnomalyDetection` with request token `t`? -/
def requestsAnomalyToken : Call → Nat → Bool
  | .requestAnomaly _ _ r, t => r = t
  | _, _ => false

/-- Is this call a `submitEncryptedSensorData` transaction? -/
def isSensorSubmit : Call → Bool
  | .submitSensor _ _ _ => true
  | _ => false

/-- The effect of one `handleAnomalyResult` transaction on the outcome slot
its token points at, as a pure function of that slot (used to state that
callbacks for distinct records act independently). -/
def anomalyStepOutcome (checkSig : Nat → Bytes → Bytes → Bool) (t : Nat)
    (ct pf : Bytes) (R : Nat) (cur : DecryptedEvent) : DecryptedEvent :=
  if R = 0 then cur
  else if cur.isHandled then cur
  else if checkSig t ct pf then
    match abiDecodeStringList ct with
    | none => cur
    | some results => ⟨results.headD "", true⟩
  else cur

/-- A concrete oracle whose signature check accepts every response. -/
def acceptSig : Nat → Bytes → Bytes → Bool := fun _ _ _ => true

/-- A concrete oracle whose signature check rejects every response. -/
def rejectSig : Nat → Bytes → Bytes → Bool := fun _ _ _ => false

/-- Concrete history: one record submitted with handles (5, 6), one anomaly
request outstanding under token 7. -/
def sampleChain : List Call := [.submitSensor 5 6 100, .requestAnomaly 0 1 7]

/-- The state reached by `sampleChain`. -/
def sampleState : ContractState := execTrace acceptSig sampleChain

/-- Concrete history: `sampleChain` followed by a verified callback carrying
`encode(["fall_detected", "ok"])` for token 7. -/
def handledChain : List Call :=
  [.submitSensor 5 6 100, .requestAnomaly 0 1 7,
   .handleAnomaly 7 (.encStringList ["fall_detected", "ok"]) (.raw 0)]

/-- The state reached by `handledChain`. -/
def handledState : ContractState := execTrace acceptSig handledChain

/-- Concrete history: one alert submitted, its decryption requested under
token 5. -/
def alertChain : List Call := [.submitAlert 9 100, .requestAlertDec 0 1 5]

/-- The state reached by `alertChain`. -/
def alertState : ContractState := execTrace acceptSig alertChain

/-- Concrete history: two records, each with its own outstanding anomaly
request (tokens 11 and 12). -/
def twoPendingChain : List Call :=
  [.submitSensor 5 6 100, .submitSensor 7 8 200,
   .requestAnomaly 0 1 11, .requestAnomaly 0 2 12]

/-- The state reached by `twoPendingChain`. -/
def twoPendingState : ContractState := execTrace acceptSig twoPendingChain

/-- Concrete submission inputs (activity, sleep, timestamp) for two
records. -/
def sampleSubs : List (Nat × Nat × Nat) := [(5, 6, 100), (7, 8, 200)]

/-! ### Unfolding lemmas for the entry points -/

theorem requestAnomalyDetection_eq (s : ContractState) (c d r : Nat) :
    requestAnomalyDetection s c d r =
      if (s.sensorDatas d).id = 0 then .error .NotFound
      else .ok { s with
        requestToDataId := Function.update s.requestToDataId r d
        events := s.events ++ [.AnomalyDetectionRequested d] } := rfl

theorem requestAlertDecryption_eq (s : ContractState) (c a r : Nat) :
    requestAlertDecryption s c a r =
      if (s.encryptedAlerts a).id = 0 then .error .NotFound
      else .ok { s with
        requestToAlertId := Function.update s.requestToAlertId r a
        events := s.events ++ [.AlertDecryptionRequested a] } := rfl

theorem handleAnomalyResult_eq (checkSig : Nat → Bytes → Bytes → Bool)
    (s : ContractState) (req : Nat) (ct pf : Bytes) :
    handleAnomalyResult checkSig s req ct pf =
      if s.requestToDataId req = 0 then .error .InvalidRequest
      else if (s.decryptedEvents (s.requestToDataId req)).isHandled then
        .error .AlreadyHandled
      else if checkSig req ct pf then
        match abiDecodeStringList ct with
        | none => .error .DecodeError
        | some results =>
          .ok { s with
            decryptedEvents := Function.update s.decryptedEvents
              (s.requestToDataId req) ⟨results.headD "", true⟩
            events := s.events ++ [.AnomalyDetected (s.requestToDataId req)] }
      else .error .InvalidProof := by
  unfold handleAnomalyResult
  rcases abiDecodeStringList ct with _ | l
  · rfl
  · cases l <;> rfl

theorem handleAlertCleartext_eq (checkSig : Nat → Bytes → Bytes → Bool)
    (s : ContractState) (req : Nat) (ct pf : Bytes) :
    handleAlertCleartext checkSig s req ct pf =
      if s.requestToAlertId req = 0 then .error .InvalidRequest
      else if checkSig req ct pf then
        match abiDecodeString ct with
        | none => .error .DecodeError
        | some _ =>
          .ok { s with events := s.events ++ [.AlertDecrypted (s.requestToAlertId req)] }
      else .error .InvalidProof := rfl

/-! ### Reachability invariant -/

/-- Invariant of every reachable contract state: the sensor store and the
outcome store are zero beyond the counter (and at the 0 sentinel), and every
registered anomaly token points at an id within the counter. -/
structure StateInv (s : ContractState) : Prop where
  sensor_default : ∀ r, r = 0 ∨ s.sensorDataCount < r → s.sensorDatas r = ⟨0, 0, 0, 0⟩
  outcome_default : ∀ r, r = 0 ∨ s.sensorDataCount < r → s.decryptedEvents r = ⟨"", false⟩
  token_bound : ∀ t, s.requestToDataId t ≠ 0 → s.requestToDataId t ≤ s.sensorDataCount

theorem StateInv.init : StateInv initState := by
  refine ⟨fun r _ => rfl, fun r _ => rfl, fun t ht => ?_⟩
  simp [initState] at ht

/-- An existing record's key is a real id within the counter. -/
theorem StateInv.record_id_bound {s : ContractState} (h : StateInv s) (d : Nat)
    (hd : (s.sensorDatas d).id ≠ 0) : d ≠ 0 ∧ d ≤ s.sensorDataCount := by
  constructor
  · rintro rfl
    exact hd (by rw [h.sensor_default 0 (Or.inl rfl)])
  · by_contra hgt
    exact hd (by rw [h.sensor_default d (Or.inr (by omega))])

/-- A handled outcome slot belongs to a real record id within the counter. -/
theorem StateInv.handled_bound {s : ContractState} (h : StateInv s) (R : Nat)
    (hR : (s.decryptedEvents R).isHandled = true) : R ≠ 0 ∧ R ≤ s.sensorDataCount := by
  constructor
  · rintro rfl
    rw [h.outcome_default 0 (Or.inl rfl)] at hR
    exact Bool.false_ne_true hR
  · by_contra hgt
    rw [h.outcome_default R (Or.inr (by omega))] at hR
    exact Bool.false_ne_true hR

theorem StateInv.submitSensor {s : ContractState} (h : StateInv s) (a sl ts : Nat) :
    StateInv (submitEncryptedSensorData s a sl ts) := by
  unfold submitEncryptedSensorData
  refine ⟨fun r hr => ?_, fun r hr => ?_, fun t ht => ?_⟩
  · simp only at hr ⊢
    rw [Function.update_noteq (by omega)]
    exact h.sensor_default r (by omega)
  · simp only at hr ⊢
    rw [Function.update_noteq (by omega)]
    exact h.outcome_default r (by omega)
  · simp only at ht ⊢
    exact le_trans (h.token_bound t ht) (Nat.le_succ _)

theorem StateInv.submitAlert {s : ContractState} (h : StateInv s) (p ts : Nat) :
    StateInv (submitEncryptedAlert s p ts) :=
  ⟨h.sensor_default, h.outcome_default, h.token_bound⟩

theorem StateInv.requestAnomaly {s s' : ContractState} (h : StateInv s) {c d r : Nat}
    (hok : requestAnomalyDetection s c d r = .ok s') : StateInv s' := by
  rw [requestAnomalyDetection_eq] at hok
  split at hok
  · exact absurd hok (by simp)
  · rename_i hid
    obtain ⟨hd0, hdle⟩ := h.record_id_bound d hid
    cases hok
    refine ⟨h.sensor_default, h.outcome_default, fun t ht => ?_⟩
    simp only at ht ⊢
    by_cases hteq : t = r
    · subst hteq
      rw [Function.update_same] at ht ⊢
      exact hdle
    · rw [Function.update_noteq hteq] at ht ⊢
      exact h.token_bound t ht

theorem StateInv.requestAlertDec {s s' : ContractState} (h : StateInv s) {c a r : Nat}
    (hok : requestAlertDecryption s c a r = .ok s') : StateInv s' := by
  rw [requestAlertDecryption_eq] at hok
  split at hok
  · exact absurd hok (by simp)
  · cases hok
    exact ⟨h.sensor_default, h.outcome_default, h.token_bound⟩

theorem StateInv.handleAnomaly {checkSig : Nat → Bytes → Bytes → Bool}
    {s s' : ContractState} (h : StateInv s) {req : Nat} {ct pf : Bytes}
    (hok : handleAnomalyResult checkSig s req ct pf = .ok s') : StateInv s' := by
  rw [handleAnomalyResult_eq] at hok
  split at hok
  · exact absurd hok (by simp)
  · rename_i hid
    split at hok
    · exact absurd hok (by simp)
    · split at hok
      · split at hok
        · exact absurd hok (by simp)
        · have hdle := h.token_bound req hid
          cases hok
          refine ⟨h.sensor_default, fun r hr => ?_, h.token_bound⟩
          simp only at hr ⊢
          rw [Function.update_noteq (by omega)]
          exact h.outcome_default r hr
      · exact absurd hok (by simp)

theorem StateInv.handleAlert {checkSig : Nat → Bytes → Bytes → Bool}
    {s s' : ContractState} (h : StateInv s) {req : Nat} {ct pf : Bytes}
    (hok : handleAlertCleartext checkSig s req ct pf = .ok s') : StateInv s' := by
  rw [handleAlertCleartext_eq] at hok
  split at hok
  · exact absurd hok (by simp)
  · split at hok
    · split at hok
      · exact absurd hok (by simp)
      · cases hok
        exact ⟨h.sensor_default, h.outcome_default, h.token_bound⟩
    · exact absurd hok (by simp)

theorem stateInv_step {checkSig : Nat → Bytes → Bytes → Bool} {s : ContractState}
    (h : StateInv s) (c : Call) : StateInv (step checkSig s c) := by
  cases c with
  | submitSensor a sl ts => exact h.submitSensor a sl ts
  | submitAlert p ts => exact h.submitAlert p ts
  | requestAnomaly c d r =>
    simp only [step]
    cases hres : requestAnomalyDetection s c d r with
    | error e => exact h
    | ok s' => exact h.requestAnomaly hres
  | requestAlertDec c a r =>
    simp only [step]
    cases hres : requestAlertDecryption s c a r with
    | error e => exact h
    | ok s' => exact h.requestAlertDec hres
  | handleAnomaly req ct pf =>
    simp only [step]
    cases hres : handleAnomalyResult checkSig s req ct pf with
    | error e => exact h
    | ok s' => exact h.handleAnomaly hres
  | handleAlert req ct pf =>
    simp only [step]
    cases hres : handleAlertCleartext checkSig s req ct pf with
    | error e => exact h
    | ok s' => exact h.handleAlert hres

theorem stateInv_foldl {checkSig : Nat → Bytes → Bytes → Bool} {s : ContractState}
    (h : StateInv s) (cs : List Call) : StateInv (cs.foldl (step checkSig) s) := by
  induction cs generalizing s with
  | nil => exact h
  | cons c cs ih => exact ih (stateInv_step h c)

theorem stateInv_execTrace (checkSig : Nat → Bytes → Bytes → Bool) (cs : List Call) :
    StateInv (execTrace checkSig cs) := stateInv_foldl StateInv.init cs

/-! ### Shape of successful calls and frame lemmas -/

theorem handleAnomalyResult_ok_shape {checkSig : Nat → Bytes → Bytes → Bool}
    {s s' : ContractState} {t : Nat} {ct pf : Bytes}
    (h : handleAnomalyResult checkSig s t ct pf = .ok s') :
    ∃ results, abiDecodeStringList ct = some results ∧
      s.requestToDataId t ≠ 0 ∧
      (s.decryptedEvents (s.requestToDataId t)).isHandled = false ∧
      checkSig t ct pf = true ∧
      s' = { s with
        decryptedEvents := Function.update s.decryptedEvents
          (s.requestToDataId t) ⟨results.headD "", true⟩
        events := s.events ++ [.AnomalyDetected (s.requestToDataId t)] } := by
  rw [handleAnomalyResult_eq] at h
  by_cases hid : s.requestToDataId t = 0
  · rw [if_pos hid] at h
    simp at h
  · rw [if_neg hid] at h
    by_cases hH : (s.decryptedEvents (s.requestToDataId t)).isHandled = true
    · rw [if_pos hH] at h
      simp at h
    · rw [if_neg hH] at h
      by_cases hsig : checkSig t ct pf = true
      · rw [if_pos hsig] at h
        cases hdec : abiDecodeStringList ct with
        | none =>
          rw [hdec] at h
          simp at h
        | some results =>
          rw [hdec] at h
          cases h
          simp only [Bool.not_eq_true] at hH
          exact ⟨results, rfl, hid, hH, hsig, rfl⟩
      · rw [if_neg hsig] at h
        simp at h

theorem handleAlertCleartext_ok_shape {checkSig : Nat → Bytes → Bytes → Bool}
    {s s' : ContractState} {t : Nat} {ct pf : Bytes}
    (h : handleAlertCleartext checkSig s t ct pf = .ok s') :
    s.requestToAlertId t ≠ 0 ∧ checkSig t ct pf = true ∧
      (∃ txt, abiDecodeString ct = some txt) ∧
      s' = { s with
        events := s.events ++ [.AlertDecrypted (s.requestToAlertId t)] } := by
  rw [handleAlertCleartext_eq] at h
  by_cases hid : s.requestToAlertId t = 0
  · rw [if_pos hid] at h
    simp at h
  · rw [if_neg hid] at h
    by_cases hsig : checkSig t ct pf = true
    · rw [if_pos hsig] at h
      cases hdec : abiDecodeString ct with
      | none =>
        rw [hdec] at h
        simp at h
      | some txt =>
        rw [hdec] at h
        cases h
        exact ⟨hid, hsig, ⟨txt, rfl⟩, rfl⟩
    · rw [if_neg hsig] at h
      simp at h

theorem step_handleAnomaly_error {checkSig : Nat → Bytes → Bytes → Bool}
    {s : ContractState} {t : Nat} {ct pf : Bytes} {e : ContractError}
    (h : handleAnomalyResult checkSig s t ct pf = .error e) :
    step checkSig s (.handleAnomaly t ct pf) = s := by
  simp [step, h]

theorem step_requestAnomaly_error {checkSig : Nat → Bytes → Bytes → Bool}
    {s : ContractState} {c d r : Nat} {e : ContractError}
    (h : requestAnomalyDetection s c d r = .error e) :
    step checkSig s (.requestAnomaly c d r) = s := by
  simp [step, h]

theorem step_handleAnomaly_requestToDataId
    (checkSig : Nat → Bytes → Bytes → Bool) (s : ContractState)
    (t : Nat) (ct pf : Bytes) :
    (step checkSig s (.handleAnomaly t ct pf)).requestToDataId =
      s.requestToDataId := by
  simp only [step]
  cases hres : handleAnomalyResult checkSig s t ct pf with
  | error e => rfl
  | ok s' =>
    obtain ⟨results, -, -, -, -, rfl⟩ := handleAnomalyResult_ok_shape hres
    rfl

theorem step_handleAnomaly_decryptedEvents_other
    (checkSig : Nat → Bytes → Bytes → Bool) (s : ContractState)
    (t : Nat) (ct pf : Bytes) (R : Nat) (hR : R ≠ s.requestToDataId t) :
    (step checkSig s (.handleAnomaly t ct pf)).decryptedEvents R =
      s.decryptedEvents R := by
  simp only [step]
  cases hres : handleAnomalyResult checkSig s t ct pf with
  | error e => rfl
  | ok s' =>
    obtain ⟨results, -, -, -, -, rfl⟩ := handleAnomalyResult_ok_shape hres
    exact Function.update_noteq hR _ _

theorem step_handleAnomaly_decryptedEvents_own
    (checkSig : Nat → Bytes → Bytes → Bool) (s : ContractState)
    (t : Nat) (ct pf : Bytes) :
    (step checkSig s (.handleAnomaly t ct pf)).decryptedEvents
        (s.requestToDataId t) =
      anomalyStepOutcome checkSig t ct pf (s.requestToDataId t)
        (s.decryptedEvents (s.requestToDataId t)) := by
  by_cases hid : s.requestToDataId t = 0
  · have herr : handleAnomalyResult checkSig s t ct pf = .error .InvalidRequest := by
      rw [handleAnomalyResult_eq, if_pos hid]
    rw [step_handleAnomaly_error herr]
    simp [anomalyStepOutcome, hid]
  · by_cases hH : (s.decryptedEvents (s.requestToDataId t)).isHandled = true
    · have herr : handleAnomalyResult checkSig s t ct pf = .error .AlreadyHandled := by
        rw [handleAnomalyResult_eq, if_neg hid, if_pos hH]
      rw [step_handleAnomaly_error herr]
      simp [anomalyStepOutcome, hid, hH]
    · by_cases hsig : checkSig t ct pf = true
      · cases hdec : abiDecodeStringList ct with
        | none =>
          have herr : handleAnomalyResult checkSig s t ct pf = .error .DecodeError := by
            rw [handleAnomalyResult_eq, if_neg hid, if_neg hH, if_pos hsig, hdec]
          rw [step_handleAnomaly_error herr]
          simp [anomalyStepOutcome, hid, hH, hsig, hdec]
        | some results =>
          simp only [step]
          cases hres : handleAnomalyResult checkSig s t ct pf with
          | error e =>
            rw [handleAnomalyResult_eq, if_neg hid, if_neg hH, if_pos hsig, hdec] at hres
            simp at hres
          | ok s' =>
            obtain ⟨results2, hdec2, -, -, -, rfl⟩ := handleAnomalyResult_ok_shape hres
            rw [hdec] at hdec2
            cases hdec2
            simp [anomalyStepOutcome, hid, hH, hsig, hdec, Function.update_same]
      · have herr : handleAnomalyResult checkSig s t ct pf = .error .InvalidProof := by
          rw [handleAnomalyResult_eq, if_neg hid, if_neg hH, if_neg hsig]
        rw [step_handleAnomaly_error herr]
        simp [anomalyStepOutcome, hid, hH, hsig]

/-! ### Trace-level helper lemmas -/

/-- A handled outcome slot is left untouched (summary and flag) by every
transaction. -/
theorem handled_frozen_step {checkSig : Nat → Bytes → Bytes → Bool}
    {s : ContractState} (h : StateInv s) (R : Nat)
    (hH : (s.decryptedEvents R).isHandled = true) (c : Call) :
    (step checkSig s c).decryptedEvents R = s.decryptedEvents R := by
  obtain ⟨hR0, hRle⟩ := h.handled_bound R hH
  cases c with
  | submitSensor a sl ts =>
    simp only [step, submitEncryptedSensorData]
    exact Function.update_noteq (by omega) _ _
  | submitAlert p ts => rfl
  | requestAnomaly cal d r =>
    simp only [step]
    cases hres : requestAnomalyDetection s cal d r with
    | error e => rfl
    | ok s' =>
      rw [requestAnomalyDetection_eq] at hres
      split at hres
      · simp at hres
      · cases hres; rfl
  | requestAlertDec cal a r =>
    simp only [step]
    cases hres : requestAlertDecryption s cal a r with
    | error e => rfl
    | ok s' =>
      rw [requestAlertDecryption_eq] at hres
      split at hres
      · simp at hres
      · cases hres; rfl
  | handleAnomaly t ct pf =>
    by_cases hcontra : R = s.requestToDataId t
    · have hid : s.requestToDataId t ≠ 0 := by rw [← hcontra]; exact hR0
      have hHt : (s.decryptedEvents (s.requestToDataId t)).isHandled = true := by
        rw [← hcontra]; exact hH
      have herr : handleAnomalyResult checkSig s t ct pf = .error .AlreadyHandled := by
        rw [handleAnomalyResult_eq, if_neg hid, if_pos hHt]
      rw [step_handleAnomaly_error herr]
    · exact step_handleAnomaly_decryptedEvents_other checkSig s t ct pf R hcontra
  | handleAlert t ct pf =>
    simp only [step]
    cases hres : handleAlertCleartext checkSig s t ct pf with
    | error e => rfl
    | ok s' =>
      obtain ⟨-, -, -, rfl⟩ := handleAlertCleartext_ok_shape hres
      rfl

/-- A handled outcome slot is left untouched by every later transaction
sequence. -/
theorem handled_frozen_foldl {checkSig : Nat → Bytes → Bytes → Bool}
    {s : ContractState} (h : StateInv s) (R : Nat)
    (hH : (s.decryptedEvents R).isHandled = true) (cs : List Call) :
    (cs.foldl (step checkSig) s).decryptedEvents R = s.decryptedEvents R := by
  induction cs generalizing s with
  | nil => rfl
  | cons c cs ih =>
    have hstep := @handled_frozen_step checkSig s h R hH c
    have hH' : ((step checkSig s c).decryptedEvents R).isHandled = true := by
      rw [hstep]; exact hH
    simp only [List.foldl_cons]
    rw [ih (stateInv_step h c) hH', hstep]

/-- A transaction that is not a `requestAnomalyDetection` with token `t`
leaves the anomaly correlation entry of `t` unchanged. -/
theorem step_requestToDataId_of_not_token {checkSig : Nat → Bytes → Bytes → Bool}
    {s : ContractState} {c : Call} {t : Nat}
    (hc : requestsAnomalyToken c t = false) :
    (step checkSig s c).requestToDataId t = s.requestToDataId t := by
  cases c with
  | submitSensor a sl ts => rfl
  | submitAlert p ts => rfl
  | requestAnomaly cal d r =>
    have hrt : r ≠ t := by
      simpa [requestsAnomalyToken] using hc
    simp only [step]
    cases hres : requestAnomalyDetection s cal d r with
    | error e => rfl
    | ok s' =>
      rw [requestAnomalyDetection_eq] at hres
      split at hres
      · simp at hres
      · cases hres
        exact Function.update_noteq (Ne.symm hrt) _ _
  | requestAlertDec cal a r =>
    simp only [step]
    cases hres : requestAlertDecryption s cal a r with
    | error e => rfl
    | ok s' =>
      rw [requestAlertDecryption_eq] at hres
      split at hres
      · simp at hres
      · cases hres; rfl
  | handleAnomaly t' ct pf =>
    rw [step_handleAnomaly_requestToDataId]
  | handleAlert t' ct pf =>
    simp only [step]
    cases hres : handleAlertCleartext checkSig s t' ct pf with
    | error e => rfl
    | ok s' =>
      obtain ⟨-, -, -, rfl⟩ := handleAlertCleartext_ok_shape hres
      rfl

/-- If no transaction in the trace requests anomaly detection under token
`t`, then `t` still maps to the 0 sentinel. -/
theorem token_unregistered_foldl {checkSig : Nat → Bytes → Bytes → Bool}
    {s : ContractState} (t : Nat) (h0 : s.requestToDataId t = 0)
    (cs : List Call) (hns : ∀ c ∈ cs, requestsAnomalyToken c t = false) :
    (cs.foldl (step checkSig) s).requestToDataId t = 0 := by
  induction cs generalizing s with
  | nil => exact h0
  | cons c cs ih =>
    simp only [List.foldl_cons]
    refine ih ?_ (fun c' hc' => hns c' (List.mem_cons_of_mem c hc'))
    rw [step_requestToDataId_of_not_token (hns c (List.mem_cons_self c cs))]
    exact h0

/-- Each transaction raises the sensor counter by one exactly when it is a
sensor submission. -/
theorem step_sensorDataCount {checkSig : Nat → Bytes → Bytes → Bool}
    (s : ContractState) (c : Call) :
    (step checkSig s c).sensorDataCount =
      if isSensorSubmit c then s.sensorDataCount + 1 else s.sensorDataCount := by
  cases c with
  | submitSensor a sl ts => rfl
  | submitAlert p ts => rfl
  | requestAnomaly cal d r =>
    simp only [step, isSensorSubmit, if_neg Bool.false_ne_true]
    cases hres : requestAnomalyDetection s cal d r with
    | error e => rfl
    | ok s' =>
      rw [requestAnomalyDetection_eq] at hres
      split at hres
      · simp at hres
      · cases hres; rfl
  | requestAlertDec cal a r =>
    simp only [step, isSensorSubmit, if_neg Bool.false_ne_true]
    cases hres : requestAlertDecryption s cal a r with
    | error e => rfl
    | ok s' =>
      rw [requestAlertDecryption_eq] at hres
      split at hres
      · simp at hres
      · cases hres; rfl
  | handleAnomaly t ct pf =>
    simp only [step, isSensorSubmit, if_neg Bool.false_ne_true]
    cases hres : handleAnomalyResult checkSig s t ct pf with
    | error e => rfl
    | ok s' =>
      obtain ⟨-, -, -, -, -, rfl⟩ := handleAnomalyResult_ok_shape hres
      rfl
  | handleAlert t ct pf =>
    simp only [step, isSensorSubmit, if_neg Bool.false_ne_true]
    cases hres : handleAlertCleartext checkSig s t ct pf with
    | error e => rfl
    | ok s' =>
      obtain ⟨-, -, -, rfl⟩ := handleAlertCleartext_ok_shape hres
      rfl

/-- The sensor counter counts exactly the sensor submissions of the trace. -/
theorem foldl_sensorDataCount {checkSig : Nat → Bytes → Bytes → Bool}
    (s : ContractState) (cs : List Call) :
    (cs.foldl (step checkSig) s).sensorDataCount =
      s.sensorDataCount + (cs.filter isSensorSubmit).length := by
  induction cs generalizing s with
  | nil => simp
  | cons c cs ih =>
    simp only [List.foldl_cons, List.filter_cons]
    rw [ih, step_sensorDataCount]
    by_cases hc : isSensorSubmit c = true
    · simp [hc]
      omega
    · simp [hc]

/-! ### Submission sequences -/

theorem submitSeq_snoc (s : ContractState) (l : List (Nat × Nat × Nat))
    (x : Nat × Nat × Nat) :
    submitSeq s (l ++ [x]) =
      submitEncryptedSensorData (submitSeq s l) x.1 x.2.1 x.2.2 := by
  simp [submitSeq, List.foldl_append]

theorem submitSeq_count (s : ContractState) (subs : List (Nat × Nat × Nat)) :
    (submitSeq s subs).sensorDataCount = s.sensorDataCount + subs.length := by
  induction subs generalizing s with
  | nil => rfl
  | cons x xs ih =>
    show (submitSeq (submitEncryptedSensorData s x.1 x.2.1 x.2.2) xs).sensorDataCount = _
    rw [ih]
    simp only [submitEncryptedSensorData, List.length_cons]
    omega

theorem submitSeq_sensorDatas_zero (s : ContractState)
    (subs : List (Nat × Nat × Nat)) :
    (submitSeq s subs).sensorDatas 0 = s.sensorDatas 0 := by
  induction subs generalizing s with
  | nil => rfl
  | cons x xs ih =>
    show (submitSeq (submitEncryptedSensorData s x.1 x.2.1 x.2.2) xs).sensorDatas 0 = _
    rw [ih]
    simp only [submitEncryptedSensorData]
    exact Function.update_noteq (by omega) _ _

theorem submitSeq_take_succ (subs : List (Nat × Nat × Nat)) (k : Nat)
    (hk : k < subs.length) :
    submitSeq initState (subs.take (k + 1)) =
      submitEncryptedSensorData (submitSeq initState (subs.take k))
        (subs.get ⟨k, hk⟩).1 (subs.get ⟨k, hk⟩).2.1 (subs.get ⟨k, hk⟩).2.2 := by
  rw [List.take_succ, List.getElem?_eq_getElem hk]
  exact submitSeq_snoc initState (subs.take k) _

theorem submitSeq_take_count (subs : List (Nat × Nat × Nat)) (k : Nat)
    (hk : k ≤ subs.length) :
    (submitSeq initState (subs.take k)).sensorDataCount = k := by
  rw [submitSeq_count]
  simp only [initState, List.length_take]
  omega

/-! ### The specified properties -/

/-- C1: in `handleAnomalyResult`, proof verification gates the state write:
with a proof that fails `checkSig` (whatever the cleartexts are), the entry
point always aborts and the whole state — in particular `getDecryptedEvent`
of every record — is unchanged, and when the token is registered and the
record not yet handled the abort is precisely `InvalidProof` (the earlier
guards `InvalidRequest`/`AlreadyHandled` fire before verification on a
sentinel token or a replay). -/
theorem invalidProof_aborts_without_state_write
    (checkSig : Nat → Bytes → Bytes → Bool) (s : ContractState)
    (t : Nat) (ct pf : Bytes) (hsig : checkSig t ct pf = false) :
    (∃ e, handleAnomalyResult checkSig s t ct pf = .error e) ∧
    step checkSig s (.handleAnomaly t ct pf) = s ∧
    (∀ R, getDecryptedEvent (step checkSig s (.handleAnomaly t ct pf)) R =
      getDecryptedEvent s R) ∧
    (s.requestToDataId t ≠ 0 →
      (s.decryptedEvents (s.requestToDataId t)).isHandled = false →
      handleAnomalyResult checkSig s t ct pf = .error .InvalidProof) := by
  have hnot : ¬ checkSig t ct pf = true := by simp [hsig]
  have herr : ∃ e, handleAnomalyResult checkSig s t ct pf = .error e := by
    rw [handleAnomalyResult_eq]
    by_cases hid : s.requestToDataId t = 0
    · exact ⟨_, by rw [if_pos hid]⟩
    · by_cases hH : (s.decryptedEvents (s.requestToDataId t)).isHandled = true
      · exact ⟨_, by rw [if_neg hid, if_pos hH]⟩
      · exact ⟨_, by rw [if_neg hid, if_neg hH, if_neg hnot]⟩
  obtain ⟨e, he⟩ := herr
  refine ⟨⟨e, he⟩, step_handleAnomaly_error he, ?_, ?_⟩
  · intro R
    rw [step_handleAnomaly_error he]
  · intro hid hH
    rw [handleAnomalyResult_eq, if_neg hid, if_neg (by simp [hH]), if_neg hnot]

/-- C2: the record path is idempotent: once a record's outcome slot is
handled, every `handleAnomalyResult` through any token mapping to it fails
with `AlreadyHandled` and reverts, and the stored outcome (summary and flag)
survives every later transaction sequence unchanged — handled is terminal
and the first result is the one `getDecryptedEvent` keeps returning. -/
theorem record_outcome_idempotent (checkSig : Nat → Bytes → Bytes → Bool)
    (cs cs' : List Call) (R t : Nat) (ct pf : Bytes)
    (hH : ((execTrace checkSig cs).decryptedEvents R).isHandled = true)
    (hmap : (execTrace checkSig cs).requestToDataId t = R) :
    handleAnomalyResult checkSig (execTrace checkSig cs) t ct pf =
      .error .AlreadyHandled ∧
    step checkSig (execTrace checkSig cs) (.handleAnomaly t ct pf) =
      execTrace checkSig cs ∧
    (execTrace checkSig (cs ++ cs')).decryptedEvents R =
      (execTrace checkSig cs).decryptedEvents R := by
  have hinv := stateInv_execTrace checkSig cs
  obtain ⟨hR0, -⟩ := hinv.handled_bound R hH
  have herr : handleAnomalyResult checkSig (execTrace checkSig cs) t ct pf =
      .error .AlreadyHandled := by
    rw [handleAnomalyResult_eq, hmap, if_neg hR0, if_pos hH]
  refine ⟨herr, step_handleAnomaly_error herr, ?_⟩
  show ((cs ++ cs').foldl (step checkSig) initState).decryptedEvents R = _
  rw [List.foldl_append]
  exact handled_frozen_foldl hinv R hH cs'

/-- C3: starting from the freshly deployed contract, a sequence of N sensor
submissions assigns the ids 1..N in order (the k-th submission stores its
record under id k with that record's handles and timestamp), each new
record's outcome reads `("", false)` immediately after its submission, and
id 0 never holds a stored record. -/
theorem submit_ids_sequential (subs : List (Nat × Nat × Nat)) :
    (submitSeq initState subs).sensorDataCount = subs.length ∧
    (∀ k, (hk : k < subs.length) →
      (submitSeq initState (subs.take (k + 1))).sensorDataCount = k + 1 ∧
      (submitSeq initState (subs.take (k + 1))).sensorDatas (k + 1) =
        ⟨k + 1, (subs.get ⟨k, hk⟩).1, (subs.get ⟨k, hk⟩).2.1,
          (subs.get ⟨k, hk⟩).2.2⟩ ∧
      getDecryptedEvent (submitSeq initState (subs.take (k + 1))) (k + 1) =
        ("", false)) ∧
    ((submitSeq initState subs).sensorDatas 0).id = 0 := by
  refine ⟨?_, ?_, ?_⟩
  · rw [submitSeq_count]
    simp [initState]
  · intro k hk
    have hcnt : (submitSeq initState (subs.take k)).sensorDataCount = k :=
      submitSeq_take_count subs k (le_of_lt hk)
    rw [submitSeq_take_succ subs k hk]
    refine ⟨?_, ?_, ?_⟩
    · simp only [submitEncryptedSensorData]
      omega
    · simp only [submitEncryptedSensorData, hcnt]
      exact Function.update_same _ _ _
    · simp only [getDecryptedEvent, submitEncryptedSensorData, hcnt]
      rw [Function.update_same]
  · rw [submitSeq_sensorDatas_zero]
    rfl

/-- C4: a successful `handleAnomalyResult` stores exactly the head of the
decoded cleartext list as the summary (the empty string for an empty list),
sets the handled flag, and discards every later element — the stored state
is a function of the head alone. -/
theorem summary_is_first_cleartext (checkSig : Nat → Bytes → Bytes → Bool)
    (s : ContractState) (t R : Nat) (ct pf : Bytes) (results : List String)
    (hmap : s.requestToDataId t = R) (hR : R ≠ 0)
    (hH : (s.decryptedEvents R).isHandled = false)
    (hsig : checkSig t ct pf = true)
    (hdec : abiDecodeStringList ct = some results) :
    handleAnomalyResult checkSig s t ct pf = .ok { s with
      decryptedEvents := Function.update s.decryptedEvents R
        ⟨results.headD "", true⟩
      events := s.events ++ [.AnomalyDetected R] } ∧
    getDecryptedEvent ({ s with
      decryptedEvents := Function.update s.decryptedEvents R
        ⟨results.headD "", true⟩
      events := s.events ++ [.AnomalyDetected R] } : ContractState) R =
      (results.headD "", true) := by
  constructor
  · rw [handleAnomalyResult_eq, hmap, if_neg hR, if_neg (by simp [hH]),
      if_pos hsig, hdec]
  · simp only [getDecryptedEvent]
    rw [Function.update_same]

/-- C5: the alert callback path has no idempotence guard and persists
nothing: a verified, decodable callback for a registered alert token
succeeds, changes only the event log, succeeds again verbatim on a second
delivery (emitting `AlertDecrypted` twice), and `handleAlertCleartext` can
never fail with `AlreadyHandled` from any state. -/
theorem alert_callback_not_guarded (checkSig : Nat → Bytes → Bytes → Bool)
    (s : ContractState) (t a : Nat) (ct pf : Bytes) (txt : String)
    (hmap : s.requestToAlertId t = a) (ha : a ≠ 0)
    (hsig : checkSig t ct pf = true) (hdec : abiDecodeString ct = some txt) :
    handleAlertCleartext checkSig s t ct pf =
      .ok { s with events := s.events ++ [.AlertDecrypted a] } ∧
    ({ s with events := s.events ++ [.AlertDecrypted a] } :
        ContractState).decryptedEvents = s.decryptedEvents ∧
    handleAlertCleartext checkSig
        { s with events := s.events ++ [.AlertDecrypted a] } t ct pf =
      .ok { s with events :=
        s.events ++ [.AlertDecrypted a] ++ [.AlertDecrypted a] } ∧
    (∀ (s' : ContractState) (t' : Nat) (ct' pf' : Bytes),
      handleAlertCleartext checkSig s' t' ct' pf' ≠ .error .AlreadyHandled) := by
  refine ⟨?_, rfl, ?_, ?_⟩
  · rw [handleAlertCleartext_eq, hmap, if_neg ha, if_pos hsig, hdec]
  · simp [handleAlertCleartext_eq, hmap, ha, hsig, hdec]
  · intro s' t' ct' pf'
    rw [handleAlertCleartext_eq]
    split
    · simp
    · split
      · split <;> simp
      · simp

/-- C6: a token never used by any `requestAnomalyDetection` transaction of
the trace still maps to the 0 sentinel, so `handleAnomalyResult` on it fails
with `InvalidRequest` and the state is unchanged. -/
theorem unknown_token_invalid_request (checkSig : Nat → Bytes → Bytes → Bool)
    (cs : List Call) (t : Nat) (ct pf : Bytes)
    (hns : ∀ c ∈ cs, requestsAnomalyToken c t = false) :
    (execTrace checkSig cs).requestToDataId t = 0 ∧
    handleAnomalyResult checkSig (execTrace checkSig cs) t ct pf =
      .error .InvalidRequest ∧
    step checkSig (execTrace checkSig cs) (.handleAnomaly t ct pf) =
      execTrace checkSig cs := by
  have h0 : (execTrace checkSig cs).requestToDataId t = 0 :=
    token_unregistered_foldl t rfl cs hns
  have herr : handleAnomalyResult checkSig (execTrace checkSig cs) t ct pf =
      .error .InvalidRequest := by
    rw [handleAnomalyResult_eq, h0, if_pos rfl]
  exact ⟨h0, herr, step_handleAnomaly_error herr⟩

/-- C7: in every reachable state, `requestAnomalyDetection` on id 0 or on
any id beyond the sensor counter (the counter equals the number of
submissions, so these are exactly the never-submitted ids) fails with
`NotFound`, and the failed request changes nothing — in particular it
registers no correlation entry. -/
theorem request_unknown_record_notfound (checkSig : Nat → Bytes → Bytes → Bool)
    (cs : List Call) (caller dataId reqId : Nat)
    (hid : dataId = 0 ∨ (execTrace checkSig cs).sensorDataCount < dataId) :
    requestAnomalyDetection (execTrace checkSig cs) caller dataId reqId =
      .error .NotFound ∧
    step checkSig (execTrace checkSig cs) (.requestAnomaly caller dataId reqId) =
      execTrace checkSig cs ∧
    (execTrace checkSig cs).sensorDataCount =
      (cs.filter isSensorSubmit).length := by
  have hinv := stateInv_execTrace checkSig cs
  have hdef := hinv.sensor_default dataId hid
  have herr : requestAnomalyDetection (execTrace checkSig cs) caller dataId
      reqId = .error .NotFound := by
    rw [requestAnomalyDetection_eq, hdef]
    simp
  refine ⟨herr, step_requestAnomaly_error herr, ?_⟩
  have hc := @foldl_sensorDataCount checkSig initState cs
  simpa [initState] using hc

/-- C8: callbacks for two distinct records with their own tokens commute:
delivering them in either order leaves both records' outcomes identical,
because each callback touches only the outcome slot its own token points
at and leaves the correlation store untouched. -/
theorem independent_callbacks_commute (checkSig : Nat → Bytes → Bytes → Bool)
    (s : ContractState) (t1 t2 R1 R2 : Nat) (ct1 pf1 ct2 pf2 : Bytes)
    (h1 : s.requestToDataId t1 = R1) (h2 : s.requestToDataId t2 = R2)
    (hne : R1 ≠ R2) :
    getDecryptedEvent (step checkSig
        (step checkSig s (.handleAnomaly t1 ct1 pf1))
        (.handleAnomaly t2 ct2 pf2)) R1 =
      getDecryptedEvent (step checkSig
        (step checkSig s (.handleAnomaly t2 ct2 pf2))
        (.handleAnomaly t1 ct1 pf1)) R1 ∧
    getDecryptedEvent (step checkSig
        (step checkSig s (.handleAnomaly t1 ct1 pf1))
        (.handleAnomaly t2 ct2 pf2)) R2 =
      getDecryptedEvent (step checkSig
        (step checkSig s (.handleAnomaly t2 ct2 pf2))
        (.handleAnomaly t1 ct1 pf1)) R2 := by
  have f1 := step_handleAnomaly_requestToDataId checkSig s t1 ct1 pf1
  have f2 := step_handleAnomaly_requestToDataId checkSig s t2 ct2 pf2
  constructor
  · have hL : (step checkSig (step checkSig s (.handleAnomaly t1 ct1 pf1))
        (.handleAnomaly t2 ct2 pf2)).decryptedEvents R1 =
        anomalyStepOutcome checkSig t1 ct1 pf1 R1 (s.decryptedEvents R1) := by
      rw [step_handleAnomaly_decryptedEvents_other checkSig _ t2 ct2 pf2 R1
        (by rw [f1, h2]; exact hne)]
      have own := step_handleAnomaly_decryptedEvents_own checkSig s t1 ct1 pf1
      rw [h1] at own
      exact own
    have hR : (step checkSig (step checkSig s (.handleAnomaly t2 ct2 pf2))
        (.handleAnomaly t1 ct1 pf1)).decryptedEvents R1 =
        anomalyStepOutcome checkSig t1 ct1 pf1 R1 (s.decryptedEvents R1) := by
      have own := step_handleAnomaly_decryptedEvents_own checkSig
        (step checkSig s (.handleAnomaly t2 ct2 pf2)) t1 ct1 pf1
      rw [f2, h1] at own
      rw [own, step_handleAnomaly_decryptedEvents_other checkSig s t2 ct2 pf2 R1
        (by rw [h2]; exact hne)]
    simp [getDecryptedEvent, hL, hR]
  · have hL : (step checkSig (step checkSig s (.handleAnomaly t1 ct1 pf1))
        (.handleAnomaly t2 ct2 pf2)).decryptedEvents R2 =
        anomalyStepOutcome checkSig t2 ct2 pf2 R2 (s.decryptedEvents R2) := by
      have own := step_handleAnomaly_decryptedEvents_own checkSig
        (step checkSig s (.handleAnomaly t1 ct1 pf1)) t2 ct2 pf2
      rw [f1, h2] at own
      rw [own, step_handleAnomaly_decryptedEvents_other checkSig s t1 ct1 pf1 R2
        (by rw [h1]; exact fun hcb => hne hcb.symm)]
    have hR : (step checkSig (step checkSig s (.handleAnomaly t2 ct2 pf2))
        (.handleAnomaly t1 ct1 pf1)).decryptedEvents R2 =
        anomalyStepOutcome checkSig t2 ct2 pf2 R2 (s.decryptedEvents R2) := by
      rw [step_handleAnomaly_decryptedEvents_other checkSig _ t1 ct1 pf1 R2
        (by rw [f2, h1]; exact fun hcb => hne hcb.symm)]
      have own := step_handleAnomaly_decryptedEvents_own checkSig s t2 ct2 pf2
      rw [h2] at own
      exact own
    simp [getDecryptedEvent, hL, hR]

/-- C9: the access-control hook is a no-op, so `requestAnomalyDetection`
never fails with `Unauthorized` for any caller — its only failure is
`NotFound` — and it succeeds even on a record whose outcome is already
handled, registering the fresh token onto that record without touching the
outcome store. -/
theorem request_no_authorization_check (s : ContractState)
    (caller dataId reqId : Nat) :
    onlySource caller = .ok () ∧
    requestAnomalyDetection s caller dataId reqId ≠ .error .Unauthorized ∧
    (∀ e, requestAnomalyDetection s caller dataId reqId = .error e →
      e = .NotFound) ∧
    ((s.sensorDatas dataId).id ≠ 0 →
      (s.decryptedEvents dataId).isHandled = true →
      ∃ s', requestAnomalyDetection s caller dataId reqId = .ok s' ∧
        s'.requestToDataId reqId = dataId ∧
        s'.decryptedEvents = s.decryptedEvents) := by
  refine ⟨rfl, ?_, ?_, ?_⟩
  · rw [requestAnomalyDetection_eq]
    split <;> simp
  · intro e he
    rw [requestAnomalyDetection_eq] at he
    split at he
    · cases he
      rfl
    · simp at he
  · intro hid hH
    refine ⟨{ s with
      requestToDataId := Function.update s.requestToDataId reqId dataId
      events := s.events ++ [.AnomalyDetectionRequested dataId] }, ?_, ?_, rfl⟩
    · rw [requestAnomalyDetection_eq, if_neg hid]
    · exact Function.update_same _ _ _

/-- C10: `submitEncryptedAlert` touches only the alert counter, the alert
store and the event log: every sensor record, every outcome slot (so no
outcome entry is created for the new alert id), both correlation mappings
and the sensor counter are unchanged, for every state. -/
theorem submitAlert_frame (s : ContractState) (p ts : Nat) :
    (submitEncryptedAlert s p ts).sensorDatas = s.sensorDatas ∧
    (submitEncryptedAlert s p ts).decryptedEvents = s.decryptedEvents ∧
    (submitEncryptedAlert s p ts).requestToDataId = s.requestToDataId ∧
    (submitEncryptedAlert s p ts).requestToAlertId = s.requestToAlertId ∧
    (submitEncryptedAlert s p ts).sensorDataCount = s.sensorDataCount ∧
    (submitEncryptedAlert s p ts).alertCount = s.alertCount + 1 ∧
    (submitEncryptedAlert s p ts).encryptedAlerts =
      Function.update s.encryptedAlerts (s.alertCount + 1)
        ⟨s.alertCount + 1, p, ts⟩ ∧
    (∀ r, getDecryptedEvent (submitEncryptedAlert s p ts) r =
      getDecryptedEvent s r) :=
  ⟨rfl, rfl, rfl, rfl, rfl, rfl, rfl, fun _ => rfl⟩

/-! ### Concrete witnesses -/

/-- Witness for C1: a rejecting oracle at the concrete pending state; the
callback aborts with `InvalidProof` and the state is unchanged. -/
theorem invalidProof_aborts_without_state_write_witness :
    rejectSig 7 (.encStringList ["fall_detected", "ok"]) (.raw 0) = false ∧
    sampleState.requestToDataId 7 ≠ 0 ∧
    (sampleState.decryptedEvents (sampleState.requestToDataId 7)).isHandled =
      false ∧
    handleAnomalyResult rejectSig sampleState 7
      (.encStringList ["fall_detected", "ok"]) (.raw 0) =
      .error .InvalidProof ∧
    step rejectSig sampleState
      (.handleAnomaly 7 (.encStringList ["fall_detected", "ok"]) (.raw 0)) =
      sampleState :=
  ⟨rfl, by decide, by decide,
    (invalidProof_aborts_without_state_write rejectSig sampleState 7
      (.encStringList ["fall_detected", "ok"]) (.raw 0) rfl).2.2.2
      (by decide) (by decide),
    (invalidProof_aborts_without_state_write rejectSig sampleState 7
      (.encStringList ["fall_detected", "ok"]) (.raw 0) rfl).2.1⟩

/-- Witness for C2: after the handled history, a replayed callback under
token 7 fails with `AlreadyHandled` and the outcome of record 1 survives. -/
theorem record_outcome_idempotent_witness :
    ((execTrace acceptSig handledChain).decryptedEvents 1).isHandled = true ∧
    (execTrace acceptSig handledChain).requestToDataId 7 = 1 ∧
    (handleAnomalyResult acceptSig (execTrace acceptSig handledChain) 7
        (.encStringList ["second", "x"]) (.raw 1) = .error .AlreadyHandled ∧
      step acceptSig (execTrace acceptSig handledChain)
        (.handleAnomaly 7 (.encStringList ["second", "x"]) (.raw 1)) =
        execTrace acceptSig handledChain ∧
      (execTrace acceptSig (handledChain ++
          [.handleAnomaly 7 (.encStringList ["second", "x"])
            (.raw 1)])).decryptedEvents 1 =
        (execTrace acceptSig handledChain).decryptedEvents 1) :=
  ⟨by decide, by decide,
    record_outcome_idempotent acceptSig handledChain
      [.handleAnomaly 7 (.encStringList ["second", "x"]) (.raw 1)] 1 7
      (.encStringList ["second", "x"]) (.raw 1) (by decide) (by decide)⟩

/-- Witness for C3: two concrete submissions; the second gets id 2, its
record and fresh outcome stored under 2. -/
theorem submit_ids_sequential_witness :
    1 < sampleSubs.length ∧
    ((submitSeq initState (sampleSubs.take 2)).sensorDataCount = 2 ∧
      (submitSeq initState (sampleSubs.take 2)).sensorDatas 2 =
        ⟨2, 7, 8, 200⟩ ∧
      getDecryptedEvent (submitSeq initState (sampleSubs.take 2)) 2 =
        ("", false)) :=
  ⟨by decide, (submit_ids_sequential sampleSubs).2.1 1 (by decide)⟩

/-- Witness for C4: the spec's example — a verified callback carrying
`encode(["fall_detected", "ok"])` for record 1 yields
`getDecryptedEvent(1) = ("fall_detected", true)`, "ok" discarded. -/
theorem summary_is_first_cleartext_witness :
    sampleState.requestToDataId 7 = 1 ∧
    (sampleState.decryptedEvents 1).isHandled = false ∧
    handleAnomalyResult acceptSig sampleState 7
      (.encStringList ["fall_detected", "ok"]) (.raw 0) = .ok { sampleState with
        decryptedEvents := Function.update sampleState.decryptedEvents 1
          ⟨"fall_detected", true⟩
        events := sampleState.events ++ [.AnomalyDetected 1] } ∧
    getDecryptedEvent ({ sampleState with
        decryptedEvents := Function.update sampleState.decryptedEvents 1
          ⟨"fall_detected", true⟩
        events := sampleState.events ++ [.AnomalyDetected 1] } :
      ContractState) 1 = ("fall_detected", true) :=
  ⟨by decide, by decide,
    (summary_is_first_cleartext acceptSig sampleState 7 1
      (.encStringList ["fall_detected", "ok"]) (.raw 0)
      ["fall_detected", "ok"] (by decide) (by decide) (by decide) rfl rfl).1,
    (summary_is_first_cleartext acceptSig sampleState 7 1
      (.encStringList ["fall_detected", "ok"]) (.raw 0)
      ["fall_detected", "ok"] (by decide) (by decide) (by decide) rfl rfl).2⟩

/-- Witness for C5: the same valid alert callback delivered twice succeeds
both times, re-emitting the notification, with no outcome written. -/
theorem alert_callback_not_guarded_witness :
    alertState.requestToAlertId 5 = 1 ∧
    (handleAlertCleartext acceptSig alertState 5 (.encString "help")
        (.raw 0) =
      .ok { alertState with events :=
        alertState.events ++ [.AlertDecrypted 1] } ∧
    ({ alertState with events := alertState.events ++ [.AlertDecrypted 1] } :
        ContractState).decryptedEvents = alertState.decryptedEvents ∧
    handleAlertCleartext acceptSig
        { alertState with events := alertState.events ++ [.AlertDecrypted 1] }
        5 (.encString "help") (.raw 0) =
      .ok { alertState with events :=
        alertState.events ++ [.AlertDecrypted 1] ++ [.AlertDecrypted 1] } ∧
    (∀ (s' : ContractState) (t' : Nat) (ct' pf' : Bytes),
      handleAlertCleartext acceptSig s' t' ct' pf' ≠
        .error .AlreadyHandled)) :=
  ⟨by decide,
    alert_callback_not_guarded acceptSig alertState 5 1 (.encString "help")
      (.raw 0) "help" (by decide) (by decide) rfl rfl⟩

/-- Witness for C6: token 9 was never requested in the sample history, so
its callback fails with `InvalidRequest` and changes nothing. -/
theorem unknown_token_invalid_request_witness :
    (∀ c ∈ sampleChain, requestsAnomalyToken c 9 = false) ∧
    ((execTrace acceptSig sampleChain).requestToDataId 9 = 0 ∧
      handleAnomalyResult acceptSig (execTrace acceptSig sampleChain) 9
        (.encStringList ["x"]) (.raw 0) = .error .InvalidRequest ∧
      step acceptSig (execTrace acceptSig sampleChain)
        (.handleAnomaly 9 (.encStringList ["x"]) (.raw 0)) =
        execTrace acceptSig sampleChain) :=
  ⟨by decide,
    unknown_token_invalid_request acceptSig sampleChain 9
      (.encStringList ["x"]) (.raw 0) (by decide)⟩

/-- Witness for C7: id 2 was never submitted in the one-record history, so
requesting it fails with `NotFound` and registers nothing. -/
theorem request_unknown_record_notfound_witness :
    ((2 : Nat) = 0 ∨ (execTrace acceptSig sampleChain).sensorDataCount < 2) ∧
    (requestAnomalyDetection (execTrace acceptSig sampleChain) 42 2 8 =
        .error .NotFound ∧
      step acceptSig (execTrace acceptSig sampleChain)
        (.requestAnomaly 42 2 8) = execTrace acceptSig sampleChain ∧
      (execTrace acceptSig sampleChain).sensorDataCount =
        (sampleChain.filter isSensorSubmit).length) :=
  ⟨by decide,
    request_unknown_record_notfound acceptSig sampleChain 42 2 8 (by decide)⟩

/-- Witness for C8: two records with outstanding tokens 11 and 12; the
callbacks commute on both records' outcomes. -/
theorem independent_callbacks_commute_witness :
    twoPendingState.requestToDataId 11 = 1 ∧
    twoPendingState.requestToDataId 12 = 2 ∧
    (getDecryptedEvent (step acceptSig (step acceptSig twoPendingState
        (.handleAnomaly 11 (.encStringList ["a1"]) (.raw 0)))
        (.handleAnomaly 12 (.encStringList ["a2"]) (.raw 0))) 1 =
      getDecryptedEvent (step acceptSig (step acceptSig twoPendingState
        (.handleAnomaly 12 (.encStringList ["a2"]) (.raw 0)))
        (.handleAnomaly 11 (.encStringList ["a1"]) (.raw 0))) 1 ∧
    getDecryptedEvent (step acceptSig (step acceptSig twoPendingState
        (.handleAnomaly 11 (.encStringList ["a1"]) (.raw 0)))
        (.handleAnomaly 12 (.encStringList ["a2"]) (.raw 0))) 2 =
      getDecryptedEvent (step acceptSig (step acceptSig twoPendingState
        (.handleAnomaly 12 (.encStringList ["a2"]) (.raw 0)))
        (.handleAnomaly 11 (.encStringList ["a1"]) (.raw 0))) 2) :=
  ⟨by decide, by decide,
    independent_callbacks_commute acceptSig twoPendingState 11 12 1 2
      (.encStringList ["a1"]) (.raw 0) (.encStringList ["a2"]) (.raw 0)
      (by decide) (by decide) (by decide)⟩

/-- Witness for C9: requesting detection again on the already-handled
record 1 succeeds and registers the fresh token 8 onto it. -/
theorem request_no_authorization_check_witness :
    ((handledState.sensorDatas 1).id ≠ 0 ∧
      (handledState.decryptedEvents 1).isHandled = true) ∧
    (∃ s', requestAnomalyDetection handledState 42 1 8 = .ok s' ∧
      s'.requestToDataId 8 = 1 ∧
      s'.decryptedEvents = handledState.decryptedEvents) :=
  ⟨⟨by decide, by decide⟩,
    (request_no_authorization_check handledState 42 1 8).2.2.2
      (by decide) (by decide)⟩
